import Mathlib

/-!
# Afyascribe backend — shallow embedding and verification

This file embeds the behaviourally relevant parts of the Afyascribe
medical-records backend (a NestJS/TypeORM application) as executable Lean
definitions and proves properties of them:

* `Auth` — `src/auth/auth.service.ts` (`validateUser`, `login`,
  `verifyResetCode`) over the `users` table
  (`src/users/entities/user.entity.ts`, `src/users/users.service.ts`).
* `Icd10` — `src/icd10/icd10.service.ts` (`searchCodes`, `searchLocal`,
  `getMostUsedCodes`, `getCodeDetails`, `incrementUsage`,
  `validateCodeFormat`, `seedCommonCodes`) and the query handlers of
  `src/icd10/icd10.controller.ts`.
* `SoapNotes` — `src/soap-notes/soap-notes.service.ts` (the revision with
  patient validation: `create`, `findOne`, `update`, `updateStatus`,
  `remove`, `findAll`, `getStatistics`) over the `soap_notes` table.

Conventions of the embedding:

* Database tables are `List` values; a TypeORM `save` of an existing row
  replaces the row with the matching primary key, `repository.update`
  maps a field update over the rows with the matching key.
* Timestamps (`Date`) are `Nat` milliseconds; `new Date()` becomes an
  explicit `now` parameter.
* Generated columns (`id` of `Icd10Code`, `createdAt`, `updatedAt`) that
  no modelled behaviour reads are elided from the record types.
* Thrown `HttpException`s become `Except HttpError` / `Option` results.
* External effects (bcrypt, the WHO ICD API, the `pg_trgm` SQL
  extension) are oracle parameters of the functions that use them.
* String interpolations inside exception messages keep their constant
  parts; interpolated fragments are reproduced with `toString`/append.
-/

/-! ## String primitives

JavaScript string operations used by the services, implemented over the
character list of a `String` so that every definition reduces in the
kernel (ASCII behaviour, which is all the data model exercises). -/

/-- ASCII lower-case letter to upper case, as `String.prototype.toUpperCase`
acts on ASCII. -/
def charUp (c : Char) : Char :=
  if 'a' ≤ c ∧ c ≤ 'z' then Char.ofNat (c.toNat - 32) else c

/-- ASCII upper-case letter to lower case, as `String.prototype.toLowerCase`
acts on ASCII. -/
def charDown (c : Char) : Char :=
  if 'A' ≤ c ∧ c ≤ 'Z' then Char.ofNat (c.toNat + 32) else c

/-- `s.toUpperCase()` (ASCII). -/
def strUpper (s : String) : String := ⟨s.data.map charUp⟩

/-- `s.toLowerCase()` (ASCII). -/
def strLower (s : String) : String := ⟨s.data.map charDown⟩

/-- JavaScript whitespace (the characters the data model can contain). -/
def isWs (c : Char) : Bool := c == ' ' || c == '\t' || c == '\n' || c == '\r'

/-- `s.trim()`. -/
def strTrim (s : String) : String :=
  ⟨((s.data.dropWhile isWs).reverse.dropWhile isWs).reverse⟩

/-- Does the list start with `needle`? (helper for substring search). -/
def listStartsWith : List Char → List Char → Bool
  | [], _ => true
  | _ :: _, [] => false
  | a :: as, b :: bs => a == b && listStartsWith as bs

/-- Does `needle` occur contiguously in the list? -/
def listHas (needle : List Char) : List Char → Bool
  | [] => needle.isEmpty
  | c :: cs => listStartsWith needle (c :: cs) || listHas needle cs

/-- SQL `hay LIKE '%needle%'` / JS `hay.includes(needle)`. -/
def strHas (hay needle : String) : Bool := listHas needle.data hay.data

/-- `hay.split(/\s+/)` restricted to the whitespace of `isWs`. -/
def strWords (s : String) : List String :=
  ((s.data.splitOnP fun c => isWs c).filter fun w => ¬w.isEmpty).map
    fun w => ⟨w⟩

/-! ## Ordered SQL results

`ORDER BY` clauses are modelled by a structural insertion sort over a
boolean comparator (kernel-computable, unlike well-founded merge
sort). -/

/-- Insert `a` in front of the first element it compares no later
than. -/
def insertLe {α : Type} (le : α → α → Bool) (a : α) : List α → List α
  | [] => [a]
  | b :: bs => if le a b then a :: b :: bs else b :: insertLe le a bs

/-- Insertion sort by a boolean comparator. -/
def sortByLe {α : Type} (le : α → α → Bool) : List α → List α
  | [] => []
  | a :: as => insertLe le a (sortByLe le as)

/-! ## HTTP errors

A thrown NestJS `HttpException` reduced to its status code and message. -/

/-- A NestJS `HttpException`: status code and message. -/
structure HttpError where
  status : Nat
  message : String
deriving Repr, DecidableEq

/-! ## Users table and authentication

`src/users/entities/user.entity.ts` (the revision with the 6-digit reset
code columns) and the parts of `src/users/users.service.ts` /
`src/auth/auth.service.ts` that the claims are about. -/

/-- A row of the `users` table (`User` entity). The `soapNotes` relation
and the legacy `resetPasswordToken`/`resetPasswordExpires` columns are
carried by no modelled behaviour of the claims and are elided. -/
structure User where
  id : Nat
  email : String
  /-- the bcrypt hash stored in the `password` column -/
  password : String
  firstName : String
  lastName : String
  role : String
  isActive : Bool
  resetCode : Option String
  resetCodeExpiresAt : Option Nat
  resetCodeAttempts : Nat
deriving Repr, DecidableEq

/-- TypeORM `save` of an entity loaded from the table: replace the row
with the same primary key. -/
def saveUser (db : List User) (u : User) : List User :=
  db.map fun v => if v.id == u.id then u else v

/-- `UsersService.findByEmail`: `findOne({ where: { email } })`. -/
def findByEmail (db : List User) (email : String) : Option User :=
  db.find? fun u => u.email == email

/-- `UsersService.findById` without the thrown `NotFoundException`
(callers observe `none` where the exception would propagate). -/
def findById (db : List User) (id : Nat) : Option User :=
  db.find? fun u => u.id == id

/-- The bcrypt oracle: `verify password hash` is `bcrypt.compare`. -/
structure BcryptOracle where
  verify : String → String → Bool

/-- `AuthService.validateUser`: look the user up by email and check the
password against the stored hash; strip the password on success. (The
stripped projection is represented by returning the row itself; `login`
reads only non-password fields from it.) -/
def validateUser (bc : BcryptOracle) (db : List User) (email password : String) :
    Option User :=
  match findByEmail db email with
  | some u => if bc.verify password u.password then some u else none
  | none => none

/-- The JWT payload `AuthService.login` signs. -/
structure TokenPayload where
  email : String
  sub : Nat
  role : String
  firstName : String
  lastName : String
deriving Repr, DecidableEq

/-- The body `AuthService.login` returns on success: the signed token
(modelled by its payload) and the public user projection. -/
structure LoginResult where
  access_token : TokenPayload
  userId : Nat
  userEmail : String
deriving Repr, DecidableEq

/-- `AuthService.login`: `none` models the thrown
`UnauthorizedException('Invalid credentials')`. -/
def login (bc : BcryptOracle) (db : List User) (email password : String) :
    Option LoginResult :=
  match validateUser bc db email password with
  | none => none
  | some u =>
    some { access_token :=
             { email := u.email, sub := u.id, role := u.role,
               firstName := u.firstName, lastName := u.lastName },
           userId := u.id, userEmail := u.email }

/-! ## 6-digit password-reset code -/

/-- `MAX_ATTEMPTS` of `AuthService`. -/
def maxAttempts : Nat := 5

/-- `UsersService.findByEmailWithResetCode`: the user by email, `none`
when there is no user, no stored code/expiry, or the code expired
(`resetCodeExpiresAt < new Date()`). -/
def findByEmailWithResetCode (db : List User) (now : Nat) (email : String) :
    Option User :=
  match findByEmail db email with
  | none => none
  | some u =>
    match u.resetCode, u.resetCodeExpiresAt with
    | some _, some exp => if exp < now then none else some u
    | _, _ => none

/-- `UsersService.clearResetCode`: `repository.update(userId, {...})`. -/
def clearResetCode (db : List User) (userId : Nat) : List User :=
  db.map fun u =>
    if u.id == userId then
      { u with resetCode := none, resetCodeExpiresAt := none,
               resetCodeAttempts := 0 }
    else u

/-- `UsersService.incrementResetCodeAttempts`: load by id, add one, save,
return the new count. `none` models the propagated `NotFoundException`
of `findById`. -/
def incrementResetCodeAttempts (db : List User) (userId : Nat) :
    Option (List User × Nat) :=
  (findById db userId).map fun u =>
    let u2 := { u with resetCodeAttempts := u.resetCodeAttempts + 1 }
    (saveUser db u2, u2.resetCodeAttempts)

/-- Result body of `AuthService.verifyResetCode`. -/
structure VerifyOutcome where
  valid : Bool
  message : String
deriving Repr, DecidableEq

/-- `AuthService.verifyResetCode`. Returns the updated users table and
the `{valid, message}` body; `none` models a propagated exception (dead
in practice: the incremented user was just found by email). -/
def verifyResetCode (db : List User) (now : Nat) (email code : String) :
    Option (List User × VerifyOutcome) :=
  match findByEmailWithResetCode db now email with
  | none => some (db, ⟨false, "Invalid or expired reset code"⟩)
  | some u =>
    if u.resetCodeAttempts ≥ maxAttempts then
      some (clearResetCode db u.id,
            ⟨false, "Maximum attempts exceeded. Please request a new code"⟩)
    else if u.resetCode ≠ some code then
      (incrementResetCodeAttempts db u.id).map fun (db2, attempts) =>
        (db2, ⟨false, "Invalid code. " ++ toString (maxAttempts - attempts) ++
                      " attempt(s) remaining"⟩)
    else
      some (db, ⟨true, "Code verified successfully"⟩)

/-! ## ICD-10 codes

`src/icd10/entities/icd10-code.entity.ts` and `src/icd10/icd10.service.ts`
(the revision with the enhanced local fallback chain), plus the query
handlers of `src/icd10/icd10.controller.ts`. -/

/-- A row of the `icd10_codes` table (`Icd10Code` entity). The generated
`id`/`created_at`/`updated_at` and the descriptive
`chapter_name`/`category_code`/`category_name`/`effective_date` columns,
which no modelled behaviour reads, are elided. -/
structure Icd10Code where
  code : String
  short_description : String
  long_description : String
  chapter_code : Option String
  billable : Bool
  usage_count : Nat
  last_used_at : Option Nat
  search_terms : List String
  is_active : Bool
deriving Repr, DecidableEq

/-- `ORDER BY last_used_at DESC`: Postgres puts `NULL`s first under
`DESC`. `true` when `x` sorts no later than `y`. -/
def tsDescLe (x y : Option Nat) : Bool :=
  match x, y with
  | none, _ => true
  | some _, none => false
  | some a, some b => Nat.ble b a

/-- The `CASE WHEN LOWER(code) = :exactQuery THEN 0 ELSE 1 END` rank of
`searchLocal` (its query parameter is already lower-cased). -/
def exactRank (q : String) (r : Icd10Code) : Nat :=
  if strLower r.code == q then 0 else 1

/-- The composite `ORDER BY` of `Icd10Service.searchLocal`: exact code
match first, then `usage_count DESC`, then `last_used_at DESC`. -/
def searchKeyLe (q : String) (a b : Icd10Code) : Bool :=
  Nat.blt (exactRank q a) (exactRank q b) ||
    (exactRank q a == exactRank q b &&
      (Nat.blt b.usage_count a.usage_count ||
        (a.usage_count == b.usage_count &&
          tsDescLe a.last_used_at b.last_used_at)))

/-- `ORDER BY usage_count DESC, last_used_at DESC` of
`getMostUsedCodes`. -/
def popLe (a b : Icd10Code) : Bool :=
  Nat.blt b.usage_count a.usage_count ||
    (a.usage_count == b.usage_count && tsDescLe a.last_used_at b.last_used_at)

/-- `ORDER BY usage_count DESC` of the word-based fallback searches. -/
def usageLe (a b : Icd10Code) : Bool :=
  Nat.ble b.usage_count a.usage_count

/-- The `WHERE` predicate of `Icd10Service.searchLocal`: active, and the
(lower-cased) pattern occurs in the code, the short or long description,
or one of the `search_terms` (each compared lower-cased by the SQL
`LOWER(...) LIKE :searchPattern`). -/
def searchLocalPred (q : String) (r : Icd10Code) : Bool :=
  r.is_active &&
    (strHas (strLower r.code) q ||
     strHas (strLower r.short_description) q ||
     strHas (strLower r.long_description) q ||
     r.search_terms.any fun t => strHas (strLower t) q)

/-- `Icd10Service.searchLocal` (query already trimmed and lower-cased by
the caller): filter, sort by `searchKeyLe`, `LIMIT limit`. -/
def searchLocal (db : List Icd10Code) (q : String) (limit : Nat) :
    List Icd10Code :=
  ((sortByLe (searchKeyLe q) (db.filter fun r => searchLocalPred q r)).take
    limit)

/-- `Icd10Service.getMostUsedCodes`: active billable codes by popularity. -/
def getMostUsedCodes (db : List Icd10Code) (limit : Nat) : List Icd10Code :=
  ((sortByLe popLe (db.filter fun r => r.is_active && r.billable)).take limit)

/-- `Icd10Service.wordByWordSearch`: active codes whose short or long
description contains every word, by usage. -/
def wordByWordSearch (db : List Icd10Code) (words : List String)
    (limit : Nat) : List Icd10Code :=
  ((sortByLe usageLe (db.filter fun r =>
      r.is_active && words.all fun w =>
        strHas (strLower r.short_description) w ||
        strHas (strLower r.long_description) w)).take limit)

/-- `Icd10Service.partialWordSearch` (the any-word fallback): active codes
whose short or long description contains some word, by usage. -/
def orWordSearch (db : List Icd10Code) (words : List String)
    (limit : Nat) : List Icd10Code :=
  ((sortByLe usageLe (db.filter fun r =>
      r.is_active && words.any fun w =>
        strHas (strLower r.short_description) w ||
        strHas (strLower r.long_description) w)).take limit)

/-- The `pg_trgm` trigram-similarity query of `fuzzySearchLocal`, an SQL
extension probed at startup; modelled as an oracle together with its
availability flag. -/
structure TrgmOracle where
  available : Bool
  search : String → Nat → List Icd10Code

/-- `Icd10Service.enhancedSearch`: trigram similarity when available,
then the all-words match, then the any-word match over the words of the
query longer than 2 characters. -/
def enhancedSearch (trgm : TrgmOracle) (db : List Icd10Code) (q : String)
    (limit : Nat) : List Icd10Code :=
  let fuzzy := if trgm.available then trgm.search q limit else []
  if ¬fuzzy.isEmpty then fuzzy
  else
    let words := (strWords q).filter fun w => 2 < w.length
    if ¬words.isEmpty then
      let wordResults := wordByWordSearch db words limit
      if ¬wordResults.isEmpty then wordResults
      else
        let orResults := orWordSearch db words limit
        if ¬orResults.isEmpty then orResults else []
    else []

/-- `Icd10Service.searchCodes` (main search): popularity fallback for
queries shorter than 2 trimmed characters, else the local substring
search, the empty-table check, and the enhanced fallback chain. -/
def searchCodes (trgm : TrgmOracle) (db : List Icd10Code) (query : String)
    (limit : Nat) : List Icd10Code :=
  if (strTrim query).length < 2 then getMostUsedCodes db limit
  else
    let normalizedQuery := strLower (strTrim query)
    let localResults := searchLocal db normalizedQuery limit
    if 0 < localResults.length then localResults
    else if db.length == 0 then []
    else enhancedSearch trgm db normalizedQuery limit

/-- `Icd10Controller.search` (`GET /icd10/search`): reject queries of
fewer than 2 trimmed characters with `400`, cap the limit at 50
(default 15), then delegate to the service. -/
def icd10ControllerSearch (trgm : TrgmOracle) (db : List Icd10Code)
    (query : String) (limit : Option Nat) :
    Except HttpError (List Icd10Code) :=
  if (strTrim query).length < 2 then
    .error ⟨400, "Query must be at least 2 characters"⟩
  else
    let limitNum := min (limit.getD 15) 50
    .ok (searchCodes trgm db query limitNum)

/-- ASCII `[A-Z]`. -/
def isUpperAlpha (c : Char) : Bool := 'A' ≤ c && c ≤ 'Z'

/-- ASCII `[0-9]`. -/
def isDigitCh (c : Char) : Bool := '0' ≤ c && c ≤ '9'

/-- `Icd10Service.validateCodeFormat`: the anchored regex
`[A-Z][0-9][0-9](\.[0-9]..[0-9])?` with 1 to 4 digits after the dot. -/
def validateCodeFormat (code : String) : Bool :=
  match code.data with
  | a :: b :: c :: rest =>
    isUpperAlpha a && isDigitCh b && isDigitCh c &&
      (match rest with
       | [] => true
       | '.' :: ds => 1 ≤ ds.length && ds.length ≤ 4 && ds.all isDigitCh
       | _ => false)
  | _ => false

/-- The normalization of `Icd10Service.getCodeDetails`:
`code.toUpperCase().trim()`. -/
def normCode (code : String) : String := strTrim (strUpper code)

/-- `Icd10Service.incrementUsage`: SQL update adding one to
`usage_count` and stamping `last_used_at` on the rows with the code. -/
def incrementUsage (db : List Icd10Code) (now : Nat) (code : String) :
    List Icd10Code :=
  db.map fun r =>
    if r.code == code then
      { r with usage_count := r.usage_count + 1, last_used_at := some now }
    else r

/-- The ways the WHO-API leg of `getCodeDetails` can fail: a rejected
`fetch` (network), a failure inside `ensureAuthenticated` (missing
credentials or token-endpoint failure, both thrown as `HttpException`s),
or a non-OK response status. -/
inductive WhoFailure where
  | network
  | auth
  | notOk (status : Nat)
deriving Repr, DecidableEq

/-- A WHO API entity as `getCodeDetails` consumes it: the extracted
title and optional definition values. -/
structure WhoEntity where
  title : String
  definition : Option String
deriving Repr, DecidableEq

/-- The WHO ICD API oracle: the outcome of authenticating and fetching
the entity of a code. -/
def WhoApi : Type := String → Except WhoFailure WhoEntity

/-- The entity `getCodeDetails` builds and saves from a WHO response
(`short_description: title || ''`,
`long_description: definition || title || ''`). -/
def mkFetchedCode (code : String) (data : WhoEntity) : Icd10Code :=
  { code := code,
    short_description := data.title,
    long_description :=
      (match data.definition with
       | some d => if d.isEmpty then data.title else d
       | none => data.title),
    chapter_code := none,
    billable := true,
    usage_count := 0,
    last_used_at := none,
    search_terms := [],
    is_active := true }

/-- `Icd10Service.getCodeDetails`: normalize, local lookup (tracking
usage on a hit), else the WHO API with every failure swallowed into a
`null` result. Returns the updated table and the result. -/
def getCodeDetails (api : WhoApi) (now : Nat) (db : List Icd10Code)
    (code : String) : List Icd10Code × Option Icd10Code :=
  let n := normCode code
  match db.find? fun r => r.code == n with
  | some e => (incrementUsage db now n, some e)
  | none =>
    match api n with
    | .ok data =>
      let e := mkFetchedCode n data
      (db ++ [e], some e)
    | .error _ => (db, none)

/-- `Icd10Controller.getCode` (`GET /icd10/code/:code`): `400` on a
malformed code, `404` when the lookup yields nothing. (The quoted code
inside the `404` message is reproduced without the quote characters.) -/
def icd10ControllerGetCode (api : WhoApi) (now : Nat) (db : List Icd10Code)
    (code : String) : List Icd10Code × Except HttpError Icd10Code :=
  if ¬validateCodeFormat code then
    (db, .error ⟨400, "Invalid ICD-10 code format. Expected format: A00 or A00.0"⟩)
  else
    match getCodeDetails api now db code with
    | (db2, some e) => (db2, .ok e)
    | (db2, none) =>
      (db2, .error ⟨404, "ICD-10 code " ++ code ++ " not found"⟩)

/-- The stored usage counter of a code (`none` when the code is absent). -/
def usageOf (db : List Icd10Code) (code : String) : Option Nat :=
  (db.find? fun r => r.code == code).map fun r => r.usage_count

/-- An entry of the `commonCodes` seed table inside
`Icd10Service.seedCommonCodes`. -/
structure SeedItem where
  code : String
  shortDesc : String
  chapterCode : String
  searchTerms : List String
deriving Repr, DecidableEq

/-- The `commonCodes` literal of `Icd10Service.seedCommonCodes`. -/
def commonCodes : List SeedItem :=
  [⟨"B50", "Plasmodium falciparum malaria", "I", ["malaria", "falciparum", "cerebral malaria"]⟩,
   ⟨"B50.0", "Plasmodium falciparum malaria with cerebral complications", "I", ["cerebral malaria", "falciparum", "brain"]⟩,
   ⟨"B50.8", "Other severe and complicated Plasmodium falciparum malaria", "I", ["severe malaria", "complicated malaria", "falciparum"]⟩,
   ⟨"B50.9", "Plasmodium falciparum malaria, unspecified", "I", ["malaria", "falciparum"]⟩,
   ⟨"B51", "Plasmodium vivax malaria", "I", ["malaria", "vivax"]⟩,
   ⟨"B51.0", "Plasmodium vivax malaria with rupture of spleen", "I", ["vivax malaria", "spleen rupture"]⟩,
   ⟨"B51.8", "Plasmodium vivax malaria with other complications", "I", ["vivax malaria", "complications"]⟩,
   ⟨"B51.9", "Plasmodium vivax malaria without complication", "I", ["malaria", "vivax"]⟩,
   ⟨"B52", "Plasmodium malariae malaria", "I", ["malaria", "malariae"]⟩,
   ⟨"B52.0", "Plasmodium malariae malaria with nephropathy", "I", ["malariae malaria", "kidney", "nephropathy"]⟩,
   ⟨"B52.8", "Plasmodium malariae malaria with other complications", "I", ["malariae malaria", "complications"]⟩,
   ⟨"B52.9", "Plasmodium malariae malaria without complication", "I", ["malaria", "malariae"]⟩,
   ⟨"B53", "Other parasitologically confirmed malaria", "I", ["malaria", "parasites"]⟩,
   ⟨"B53.0", "Plasmodium ovale malaria", "I", ["malaria", "ovale"]⟩,
   ⟨"B53.1", "Malaria due to simian plasmodia", "I", ["malaria", "simian", "monkey"]⟩,
   ⟨"B53.8", "Other parasitologically confirmed malaria, not elsewhere classified", "I", ["malaria", "other"]⟩,
   ⟨"B54", "Unspecified malaria", "I", ["malaria", "unspecified"]⟩,
   ⟨"B20", "Human immunodeficiency virus [HIV] disease", "I", ["hiv", "aids", "immunodeficiency"]⟩,
   ⟨"B24", "Unspecified human immunodeficiency virus [HIV] disease", "I", ["hiv", "aids"]⟩,
   ⟨"E11", "Type 2 diabetes mellitus", "IV", ["diabetes", "type 2", "t2dm", "sugar"]⟩,
   ⟨"E11.9", "Type 2 diabetes mellitus without complications", "IV", ["diabetes", "type 2", "t2dm"]⟩,
   ⟨"E10", "Type 1 diabetes mellitus", "IV", ["diabetes", "type 1", "t1dm", "insulin dependent"]⟩,
   ⟨"E10.9", "Type 1 diabetes mellitus without complications", "IV", ["diabetes", "type 1", "t1dm"]⟩,
   ⟨"I10", "Essential (primary) hypertension", "IX", ["hypertension", "high blood pressure", "hbp", "bp"]⟩,
   ⟨"I11", "Hypertensive heart disease", "IX", ["hypertension", "heart disease", "hbp"]⟩,
   ⟨"I15", "Secondary hypertension", "IX", ["hypertension", "secondary", "high blood pressure"]⟩,
   ⟨"U07.1", "COVID-19", "XXII", ["covid", "coronavirus", "covid-19", "sars-cov-2"]⟩,
   ⟨"J45", "Asthma", "X", ["asthma", "wheezing", "bronchial"]⟩,
   ⟨"J45.9", "Asthma, unspecified", "X", ["asthma", "unspecified"]⟩,
   ⟨"J18", "Pneumonia, unspecified organism", "X", ["pneumonia", "lung infection"]⟩,
   ⟨"J18.9", "Pneumonia, unspecified", "X", ["pneumonia", "chest infection"]⟩,
   ⟨"J06.9", "Acute upper respiratory infection, unspecified", "X", ["uri", "cold", "flu", "cough"]⟩,
   ⟨"A15", "Respiratory tuberculosis", "I", ["tb", "tuberculosis", "lung tb"]⟩,
   ⟨"A15.0", "Tuberculosis of lung", "I", ["tb", "tuberculosis", "pulmonary"]⟩]

/-- The row `seedCommonCodes` saves for a seed item (the
`search_terms: item.searchTerms || [...]` fallback is dead: every item
carries terms). -/
def mkSeedCode (item : SeedItem) : Icd10Code :=
  { code := item.code,
    short_description := item.shortDesc,
    long_description := item.shortDesc,
    chapter_code := some item.chapterCode,
    billable := true,
    usage_count := 0,
    last_used_at := none,
    search_terms := item.searchTerms,
    is_active := true }

/-- `Icd10Service.seedCommonCodes`: insert each common code unless a row
with its code already exists. -/
def seedCommonCodes (db : List Icd10Code) : List Icd10Code :=
  commonCodes.foldl
    (fun acc item =>
      if (acc.find? fun r => r.code == item.code).isSome then acc
      else acc ++ [mkSeedCode item])
    db

/-! ## Patients and SOAP notes

`src/patients/patients.service.ts` (`patientExists`) and
`src/soap-notes/soap-notes.service.ts` — the revision that validates the
patient on create — over the `soap_notes` table
(`src/soap-notes/entities/soap-note.entity.ts`). -/

/-- A row of the `patients` table, reduced to the columns the modelled
behaviour reads: the primary key (`patientExists`) and the name columns
(the patient-name filter of `SoapNotesService.findAll`). -/
structure Patient where
  id : Nat
  firstName : String
  lastName : String
deriving Repr, DecidableEq

/-- `PatientsService.patientExists`: `count({ where: { id } }) > 0`. -/
def patientExists (patients : List Patient) (id : Nat) : Bool :=
  0 < patients.countP fun p => p.id == id

/-- `SoapNoteStatus` (`src/soap-notes/enums/soap-note-status.enum.ts`). -/
inductive SoapNoteStatus where
  | pending
  | submitted
  | reviewed
  | archived
deriving Repr, DecidableEq

/-- One `{field, oldValue, newValue}` element of an edit-history entry
(`SoapNote.editHistory` column type). -/
structure EditChange where
  field : String
  oldValue : String
  newValue : String
deriving Repr, DecidableEq

/-- One element of the `editHistory` jsonb array column of `SoapNote`. -/
structure EditHistoryEntry where
  editedBy : Nat
  editedByName : String
  editedAt : Nat
  changes : List EditChange
deriving Repr, DecidableEq

/-- A row of the `soap_notes` table (`SoapNote` entity). The eager
`patient`/`createdBy` relation objects and the generated
`createdAt`/`updatedAt` columns are elided; the nullable `editHistory`
jsonb column is a list (`null` and `[]` behave alike for appends). -/
structure SoapNote where
  id : Nat
  patientId : Nat
  symptoms : String
  physicalExamination : String
  diagnosis : String
  management : String
  status : SoapNoteStatus
  wasEdited : Bool
  submittedAt : Option Nat
  createdById : Nat
  editHistory : List EditHistoryEntry
  lastEditedBy : Option Nat
  lastEditedByName : Option String
  lastEditedAt : Option Nat
deriving Repr, DecidableEq

/-- `CreateSoapNoteDto` restricted to the fields that are also columns
of the entity (the dto's `labInvestigations`/`imaging`/`icd10Code`/
`icd10Description` extras have no column and are dropped by the
repository). The four sections are optional in the dto. -/
structure CreateSoapNoteDto where
  patientId : Nat
  symptoms : Option String
  physicalExamination : Option String
  diagnosis : Option String
  management : Option String
deriving Repr, DecidableEq

/-- `UpdateSoapNoteDto`, likewise restricted to the entity columns:
the four optional content sections and the optional `wasEdited` flag. -/
structure UpdateSoapNoteDto where
  symptoms : Option String
  physicalExamination : Option String
  diagnosis : Option String
  management : Option String
  wasEdited : Option Bool
deriving Repr, DecidableEq

/-- TypeORM `save` of a loaded `SoapNote`: replace the row with the same
primary key. -/
def saveNote (db : List SoapNote) (n : SoapNote) : List SoapNote :=
  db.map fun m => if m.id == n.id then n else m

/-- The row `repository.create({...dto, createdById: userId})` builds;
`newId` stands for the generated primary key, unset sections default to
the column defaults. -/
def mkNote (dto : CreateSoapNoteDto) (userId newId : Nat) : SoapNote :=
  { id := newId,
    patientId := dto.patientId,
    symptoms := dto.symptoms.getD "",
    physicalExamination := dto.physicalExamination.getD "",
    diagnosis := dto.diagnosis.getD "",
    management := dto.management.getD "",
    status := .pending,
    wasEdited := false,
    submittedAt := none,
    createdById := userId,
    editHistory := [],
    lastEditedBy := none,
    lastEditedByName := none,
    lastEditedAt := none }

/-- `SoapNotesService.create` (revision with patient validation): reject
with `400 BadRequestException` when the patient does not exist, else
save the new note. Returns the unchanged table alongside the error, the
extended table and the note on success. (The patient id inside the
message is reproduced with `toString`.) -/
def createSoapNote (patients : List Patient) (db : List SoapNote)
    (dto : CreateSoapNoteDto) (userId newId : Nat) :
    List SoapNote × Except HttpError SoapNote :=
  if ¬patientExists patients dto.patientId then
    (db, .error ⟨400, "Patient with ID " ++ toString dto.patientId ++
                      " not found"⟩)
  else
    let note := mkNote dto userId newId
    (db ++ [note], .ok note)

/-- The `NotFoundException` of `SoapNotesService.findOne` — the same
value whether the id is absent or the note belongs to another user. -/
def noteNotFound (id : Nat) : HttpError :=
  ⟨404, "SOAP note with ID " ++ toString id ++ " not found"⟩

/-- `SoapNotesService.findOne`: `findOne({ where: { id, createdById:
userId } })`, throwing `noteNotFound` when nothing matches. -/
def findOneNote (db : List SoapNote) (id userId : Nat) :
    Except HttpError SoapNote :=
  match db.find? fun n => n.id == id && n.createdById == userId with
  | some n => .ok n
  | none => .error (noteNotFound id)

/-- The `contentFields` list of `SoapNotesService.update` evaluated on a
note and dto: is some supplied section different from the stored one? -/
def wasContentEdited (n : SoapNote) (dto : UpdateSoapNoteDto) : Bool :=
  (match dto.symptoms with | some v => v ≠ n.symptoms | none => false) ||
  (match dto.physicalExamination with
   | some v => v ≠ n.physicalExamination | none => false) ||
  (match dto.diagnosis with | some v => v ≠ n.diagnosis | none => false) ||
  (match dto.management with | some v => v ≠ n.management | none => false)

/-- `Object.assign(soapNote, updateSoapNoteDto)`: overwrite each column
the dto supplies. -/
def assignDto (n : SoapNote) (dto : UpdateSoapNoteDto) : SoapNote :=
  { n with
    symptoms := dto.symptoms.getD n.symptoms,
    physicalExamination :=
      dto.physicalExamination.getD n.physicalExamination,
    diagnosis := dto.diagnosis.getD n.diagnosis,
    management := dto.management.getD n.management,
    wasEdited := dto.wasEdited.getD n.wasEdited }

/-- `SoapNotesService.update`: load the user's note, force
`dto.wasEdited := true` when a supplied content field differs, assign
and save. -/
def updateNote (db : List SoapNote) (id : Nat) (dto : UpdateSoapNoteDto)
    (userId : Nat) : List SoapNote × Except HttpError SoapNote :=
  match findOneNote db id userId with
  | .error e => (db, .error e)
  | .ok n =>
    let dto2 :=
      if wasContentEdited n dto then { dto with wasEdited := some true }
      else dto
    let n2 := assignDto n dto2
    (saveNote db n2, .ok n2)

/-- `SoapNotesService.updateStatus`: load the user's note, set the
status (stamping `submittedAt` on submission), save. -/
def updateNoteStatus (db : List SoapNote) (id : Nat)
    (status : SoapNoteStatus) (userId now : Nat) :
    List SoapNote × Except HttpError SoapNote :=
  match findOneNote db id userId with
  | .error e => (db, .error e)
  | .ok n =>
    let n2 := { n with status := status,
                       submittedAt :=
                         if status = .submitted then some now
                         else n.submittedAt }
    (saveNote db n2, .ok n2)

/-- `SoapNotesService.remove`: load the user's note, delete the row with
its primary key. -/
def removeNote (db : List SoapNote) (id userId : Nat) :
    List SoapNote × Except HttpError Unit :=
  match findOneNote db id userId with
  | .error e => (db, .error e)
  | .ok n => (db.filter fun m => ¬m.id == n.id, .ok ())

/-- `QuerySoapNotesDto`: pagination, status and patient-name filters.
The `sortBy`/`sortOrder` pair selects a column order; the embedding
carries the selected order as the comparator parameter of
`findAllNotes`. -/
structure QuerySoapNotesDto where
  page : Option Nat
  limit : Option Nat
  status : Option SoapNoteStatus
  patientName : Option String
deriving Repr, DecidableEq

/-- The pagination envelope metadata of `findAll`. -/
structure PageMeta where
  total : Nat
  page : Nat
  limit : Nat
  totalPages : Nat
  hasNextPage : Bool
  hasPreviousPage : Bool
deriving Repr, DecidableEq

/-- The `{data, meta}` response of `SoapNotesService.findAll`. -/
structure PaginatedNotes where
  data : List SoapNote
  meta : PageMeta
deriving Repr, DecidableEq

/-- The joined-patient `ILIKE` filter of `findAll`: the note's patient
matched by first name, last name, or the concatenated full name
(case-insensitively); a missing joined row matches nothing. -/
def patientNameMatches (patients : List Patient) (patientId : Nat)
    (pat : String) : Bool :=
  match patients.find? fun p => p.id == patientId with
  | none => false
  | some p =>
    strHas (strLower p.firstName) (strLower pat) ||
    strHas (strLower p.lastName) (strLower pat) ||
    strHas (strLower (p.firstName ++ " " ++ p.lastName)) (strLower pat)

/-- `SoapNotesService.findAll`: always scoped by `createdById = userId`,
optionally filtered by status and joined patient name, ordered by the
selected column (`ord`), then `skip`/`take` paginated with the envelope
metadata (`Math.ceil(total / limit)` as natural ceiling division). -/
def findAllNotes (ord : SoapNote → SoapNote → Bool)
    (patients : List Patient) (db : List SoapNote) (userId : Nat)
    (q : QuerySoapNotesDto) : PaginatedNotes :=
  let page := q.page.getD 1
  let limit := q.limit.getD 10
  let filtered := db.filter fun n =>
    n.createdById == userId &&
      (match q.status with | some s => n.status == s | none => true) &&
      (match q.patientName with
       | some pat => patientNameMatches patients n.patientId pat
       | none => true)
  let total := filtered.length
  let data := ((sortByLe ord filtered).drop ((page - 1) * limit)).take limit
  let totalPages := (total + limit - 1) / limit
  { data := data,
    meta := { total := total, page := page, limit := limit,
              totalPages := totalPages,
              hasNextPage := decide (page < totalPages),
              hasPreviousPage := decide (1 < page) } }

/-- The status enumeration order used to present the `GROUP BY` rows. -/
def allStatuses : List SoapNoteStatus :=
  [.pending, .submitted, .reviewed, .archived]

/-- The `{total, byStatus}` result of `SoapNotesService.getStatistics`. -/
structure SoapStats where
  total : Nat
  byStatus : List (SoapNoteStatus × Nat)
deriving Repr, DecidableEq

/-- `SoapNotesService.getStatistics`: both the count and the per-status
`GROUP BY` are scoped by `createdById = userId`; the `GROUP BY` yields
only statuses with at least one row (presented in enumeration order). -/
def getStatistics (db : List SoapNote) (userId : Nat) : SoapStats :=
  let mine := db.filter fun n => n.createdById == userId
  { total := mine.length,
    byStatus :=
      (allStatuses.map fun s => (s, mine.countP fun n => n.status == s)).filter
        fun p => 0 < p.2 }

/-! ## Edit-with-history operation (spec-modelled)

The `SoapNote` entity declares the append-only `editHistory` jsonb
column and the `lastEditedBy`/`lastEditedByName`/`lastEditedAt`
denormalized columns ("🆕 NEW: Edit history tracking"), and the spec
describes the operation that fills them (§4.2 Note Edit-History
Tracking), but no service revision under `src/` implements it; the
definitions below model it from the spec. -/

/-- The change a supplied dto field contributes: a `{field, old, new}`
record exactly when the field is supplied with a value different from
the stored one. -/
def optChange (field cur : String) (o : Option String) : List EditChange :=
  match o with
  | some v => if v ≠ cur then [⟨field, cur, v⟩] else []
  | none => []

/-- The changed-field computation of the edit-with-history operation:
for each of the four content sections, a `{field, old, new}` change
exactly when the dto supplies the field with a value different from the
stored one. -/
def changedFields (n : SoapNote) (dto : UpdateSoapNoteDto) :
    List EditChange :=
  optChange "symptoms" n.symptoms dto.symptoms ++
  optChange "physicalExamination" n.physicalExamination
    dto.physicalExamination ++
  optChange "diagnosis" n.diagnosis dto.diagnosis ++
  optChange "management" n.management dto.management

/-- Modelled from the spec: the edit-with-history operation on a SOAP
note, missing from `src/` (only the `SoapNote.editHistory`,
`lastEditedBy`, `lastEditedByName`, `lastEditedAt` columns are
declared). Per §4.2: compute the set of changed fields against current
values; if none changed, return unchanged; otherwise append one history
entry (editor id/name, timestamp, list of `{field, old, new}`) to the
append-only array column, update the "last edited" denormalized fields,
and overwrite the note fields. -/
def updateNoteWithHistory (db : List SoapNote) (id : Nat)
    (dto : UpdateSoapNoteDto) (editorId : Nat) (editorName : String)
    (now : Nat) : List SoapNote × Except HttpError SoapNote :=
  match findOneNote db id editorId with
  | .error e => (db, .error e)
  | .ok n =>
    let chs := changedFields n dto
    if chs.isEmpty then (db, .ok n)
    else
      let n2 :=
        { assignDto n dto with
          wasEdited := true,
          editHistory := n.editHistory ++ [⟨editorId, editorName, now, chs⟩],
          lastEditedBy := some editorId,
          lastEditedByName := some editorName,
          lastEditedAt := some now }
      (saveNote db n2, .ok n2)

/-! ## Theorems -/

/-- **C1.** The spec claims that deactivating a user prevents subsequent
successful login with correct credentials. The code contradicts it (and
the deactivate endpoint's own documentation): `AuthService.validateUser`
and `login` never read `isActive`, so a user whose `isActive` flag is
`false` still receives an access token when the email is found and the
password matches the stored hash. -/
theorem login_succeeds_for_deactivated_user (bc : BcryptOracle)
    (db : List User) (email password : String) (u : User)
    (hfind : findByEmail db email = some u)
    (hpw : bc.verify password u.password = true)
    (hinactive : u.isActive = false) :
    login bc db email password =
      some { access_token :=
               { email := u.email, sub := u.id, role := u.role,
                 firstName := u.firstName, lastName := u.lastName },
             userId := u.id, userEmail := u.email } := by
  unfold login validateUser
  rw [hfind]
  simp [hpw]

/-- **C1 witness.** A concrete deactivated user with matching
credentials still obtains a token. -/
theorem login_succeeds_for_deactivated_user_witness :
    (User.mk 1 "doc@example.com" "hash.pw1" "Jane" "Doe" "doctor" false
        none none 0).isActive = false ∧
    login ⟨fun p h => h == "hash." ++ p⟩
        [User.mk 1 "doc@example.com" "hash.pw1" "Jane" "Doe" "doctor" false
          none none 0]
        "doc@example.com" "pw1" =
      some { access_token :=
               { email := "doc@example.com", sub := 1, role := "doctor",
                 firstName := "Jane", lastName := "Doe" },
             userId := 1, userEmail := "doc@example.com" } := by
  refine ⟨rfl, ?_⟩
  exact login_succeeds_for_deactivated_user
    ⟨fun p h => h == "hash." ++ p⟩
    [User.mk 1 "doc@example.com" "hash.pw1" "Jane" "Doe" "doctor" false
      none none 0]
    "doc@example.com" "pw1"
    (User.mk 1 "doc@example.com" "hash.pw1" "Jane" "Doe" "doctor" false
      none none 0)
    (by decide) (by decide) (by decide)

/-- **C2 counterexample.** The claim says `GET /icd10/search` returns
the popularity-ordered most-used codes and never an error for queries of
trimmed length below 2. At query `"a"` the controller rejects with
`400` before reaching the service — even over a table whose most-used
list is nonempty. -/
theorem icd10Search_shortQuery_is_error :
    icd10ControllerSearch ⟨false, fun _ _ => []⟩
        [Icd10Code.mk "I10" "Essential (primary) hypertension"
          "Essential (primary) hypertension" (some "IX") true 3 none
          ["hypertension"] true]
        "a" none =
      .error ⟨400, "Query must be at least 2 characters"⟩ ∧
    getMostUsedCodes
        [Icd10Code.mk "I10" "Essential (primary) hypertension"
          "Essential (primary) hypertension" (some "IX") true 3 none
          ["hypertension"] true] 15 ≠ [] := by
  constructor
  · rfl
  · decide

/-- **C2 (amended).** For every query of trimmed length below 2 the
service-level `searchCodes` does return the popularity-ordered
most-used codes and never an error, but the HTTP endpoint
`GET /icd10/search` rejects such queries with `400 Bad Request` before
the service runs. -/
theorem searchCodes_shortQuery_popular_but_controller_rejects
    (trgm : TrgmOracle) (db : List Icd10Code) (q : String)
    (limit : Nat) (lim : Option Nat)
    (h : (strTrim q).length < 2) :
    searchCodes trgm db q limit = getMostUsedCodes db limit ∧
    icd10ControllerSearch trgm db q lim =
      .error ⟨400, "Query must be at least 2 characters"⟩ := by
  constructor
  · unfold searchCodes
    simp [h]
  · unfold icd10ControllerSearch
    simp [h]

/-- **C2 witness.** The amended statement at the query `" x "` (trimmed
length 1) over a one-row table. -/
theorem searchCodes_shortQuery_popular_witness :
    searchCodes ⟨false, fun _ _ => []⟩
        [Icd10Code.mk "E11" "Type 2 diabetes mellitus"
          "Type 2 diabetes mellitus" (some "IV") true 7 none
          ["diabetes"] true]
        " x " 15 =
      getMostUsedCodes
        [Icd10Code.mk "E11" "Type 2 diabetes mellitus"
          "Type 2 diabetes mellitus" (some "IV") true 7 none
          ["diabetes"] true] 15 ∧
    icd10ControllerSearch ⟨false, fun _ _ => []⟩
        [Icd10Code.mk "E11" "Type 2 diabetes mellitus"
          "Type 2 diabetes mellitus" (some "IV") true 7 none
          ["diabetes"] true]
        " x " (some 15) =
      .error ⟨400, "Query must be at least 2 characters"⟩ :=
  searchCodes_shortQuery_popular_but_controller_rejects
    ⟨false, fun _ _ => []⟩
    [Icd10Code.mk "E11" "Type 2 diabetes mellitus"
      "Type 2 diabetes mellitus" (some "IV") true 7 none
      ["diabetes"] true]
    " x " 15 (some 15) (by decide)

/-- **C4.** Creating a SOAP note whose `patientId` identifies no
existing patient fails with `400 Bad Request` and leaves the stored set
of notes unchanged. -/
theorem createSoapNote_unknown_patient_rejected (patients : List Patient)
    (db : List SoapNote) (dto : CreateSoapNoteDto) (userId newId : Nat)
    (h : patientExists patients dto.patientId = false) :
    createSoapNote patients db dto userId newId =
      (db, .error ⟨400, "Patient with ID " ++ toString dto.patientId ++
                        " not found"⟩) := by
  unfold createSoapNote
  simp [h]

/-- **C4 witness.** A concrete create against a patient table without
the requested id: `400` and the notes table untouched. -/
theorem createSoapNote_unknown_patient_witness :
    patientExists [Patient.mk 7 "John" "Mwangi"] 9 = false ∧
    createSoapNote [Patient.mk 7 "John" "Mwangi"] []
        (CreateSoapNoteDto.mk 9 (some "fever") none none none) 1 100 =
      ([], .error ⟨400, "Patient with ID 9 not found"⟩) := by
  refine ⟨by decide, ?_⟩
  have h := createSoapNote_unknown_patient_rejected
    [Patient.mk 7 "John" "Mwangi"] []
    (CreateSoapNoteDto.mk 9 (some "fever") none none none) 1 100 (by decide)
  simpa using h

/-- **C3.** The reset-code verification self-invalidates: once a
user's stored attempt counter has reached `MAX_ATTEMPTS = 5` (which 5
failed attempts produce, since each failed attempt adds exactly one),
the next verification — even with the correct code — fails and clears
the stored code; with the code cleared every later verification fails
(a new code request is required); and independently, any verification
after the stored expiry timestamp fails. -/
theorem verifyResetCode_lockout_and_expiry (db : List User) (now : Nat)
    (email code : String) (u : User) :
    (findByEmailWithResetCode db now email = some u →
      maxAttempts ≤ u.resetCodeAttempts →
      verifyResetCode db now email code =
        some (clearResetCode db u.id,
              ⟨false, "Maximum attempts exceeded. Please request a new code"⟩) ∧
      ∀ v ∈ clearResetCode db u.id, v.id = u.id →
        v.resetCode = none ∧ v.resetCodeExpiresAt = none ∧
        v.resetCodeAttempts = 0) ∧
    (findByEmail db email = some u → u.resetCode = none →
      verifyResetCode db now email code =
        some (db, ⟨false, "Invalid or expired reset code"⟩)) ∧
    (findByEmail db email = some u →
      ∀ exp, u.resetCodeExpiresAt = some exp → exp < now →
      verifyResetCode db now email code =
        some (db, ⟨false, "Invalid or expired reset code"⟩)) ∧
    (findByEmailWithResetCode db now email = some u →
      u.resetCodeAttempts < maxAttempts →
      u.resetCode ≠ some code →
      findById db u.id = some u →
      verifyResetCode db now email code =
        some (saveUser db { u with resetCodeAttempts := u.resetCodeAttempts + 1 },
              ⟨false, "Invalid code. " ++
                toString (maxAttempts - (u.resetCodeAttempts + 1)) ++
                " attempt(s) remaining"⟩)) := by
  refine ⟨?_, ?_, ?_, ?_⟩
  · intro hfind hmax
    constructor
    · unfold verifyResetCode
      rw [hfind]
      simp [Nat.not_lt.mpr hmax, hmax]
    · intro v hv hid
      unfold clearResetCode at hv
      rcases List.mem_map.mp hv with ⟨w, _, rfl⟩
      by_cases h : w.id == u.id
      · simp [h]
      · simp [h] at hid ⊢
        exact absurd hid (by simpa using h)
  · intro hfind hnone
    unfold verifyResetCode findByEmailWithResetCode
    rw [hfind]
    simp [hnone]
  · intro hfind exp hexp hlt
    unfold verifyResetCode findByEmailWithResetCode
    rw [hfind]
    rcases hrc : u.resetCode with _ | c
    · simp [hrc]
    · simp [hrc, hexp, hlt]
  · intro hfind hlt hne hbyid
    have hge : ¬ u.resetCodeAttempts ≥ maxAttempts := by omega
    unfold verifyResetCode
    rw [hfind]
    simp [hge, hne, incrementResetCodeAttempts, hbyid]

/-- **C3 witness.** A concrete user locked out after the counter
reached 5, a cleared-code user, an expired code, and a counted failed
attempt. -/
theorem verifyResetCode_lockout_witness :
    verifyResetCode
        [User.mk 1 "a@b.c" "h" "A" "B" "doctor" true (some "123456")
          (some 2000) 5] 1000 "a@b.c" "123456" =
      some ([User.mk 1 "a@b.c" "h" "A" "B" "doctor" true none none 0],
            ⟨false, "Maximum attempts exceeded. Please request a new code"⟩) ∧
    verifyResetCode
        [User.mk 1 "a@b.c" "h" "A" "B" "doctor" true none none 0]
        1000 "a@b.c" "123456" =
      some ([User.mk 1 "a@b.c" "h" "A" "B" "doctor" true none none 0],
            ⟨false, "Invalid or expired reset code"⟩) ∧
    verifyResetCode
        [User.mk 1 "a@b.c" "h" "A" "B" "doctor" true (some "123456")
          (some 500) 0] 1000 "a@b.c" "123456" =
      some ([User.mk 1 "a@b.c" "h" "A" "B" "doctor" true (some "123456")
              (some 500) 0],
            ⟨false, "Invalid or expired reset code"⟩) ∧
    verifyResetCode
        [User.mk 1 "a@b.c" "h" "A" "B" "doctor" true (some "123456")
          (some 2000) 4] 1000 "a@b.c" "000000" =
      some ([User.mk 1 "a@b.c" "h" "A" "B" "doctor" true (some "123456")
              (some 2000) 5],
            ⟨false, "Invalid code. 0 attempt(s) remaining"⟩) := by
  refine ⟨?_, ?_, ?_, ?_⟩
  · have h := (verifyResetCode_lockout_and_expiry
      [User.mk 1 "a@b.c" "h" "A" "B" "doctor" true (some "123456")
        (some 2000) 5] 1000 "a@b.c" "123456"
      (User.mk 1 "a@b.c" "h" "A" "B" "doctor" true (some "123456")
        (some 2000) 5)).1 (by decide) (by decide)
    simpa using h.1
  · exact (verifyResetCode_lockout_and_expiry
      [User.mk 1 "a@b.c" "h" "A" "B" "doctor" true none none 0]
      1000 "a@b.c" "123456"
      (User.mk 1 "a@b.c" "h" "A" "B" "doctor" true none none 0)).2.1
      (by decide) (by decide)
  · exact (verifyResetCode_lockout_and_expiry
      [User.mk 1 "a@b.c" "h" "A" "B" "doctor" true (some "123456")
        (some 500) 0] 1000 "a@b.c" "123456"
      (User.mk 1 "a@b.c" "h" "A" "B" "doctor" true (some "123456")
        (some 500) 0)).2.2.1 (by decide) 500 (by decide) (by decide)
  · have h := (verifyResetCode_lockout_and_expiry
      [User.mk 1 "a@b.c" "h" "A" "B" "doctor" true (some "123456")
        (some 2000) 4] 1000 "a@b.c" "000000"
      (User.mk 1 "a@b.c" "h" "A" "B" "doctor" true (some "123456")
        (some 2000) 4)).2.2.2 (by decide) (by decide) (by decide) (by decide)
    simpa using h

/-- **C5.** An update that supplies a content field (symptoms, physical
examination, diagnosis or management) with a value different from the
stored one saves the note with `wasEdited = true`; `updateStatus`
changes only the status (and possibly `submittedAt`) and leaves
`wasEdited` exactly as it was. -/
theorem update_sets_wasEdited_updateStatus_preserves_it
    (db : List SoapNote) (id userId : Nat) (dto : UpdateSoapNoteDto)
    (n : SoapNote)
    (hfind : findOneNote db id userId = .ok n)
    (hch : wasContentEdited n dto = true) :
    (∃ n2, updateNote db id dto userId = (saveNote db n2, .ok n2) ∧
      n2.wasEdited = true) ∧
    (∀ status now, ∃ m,
      updateNoteStatus db id status userId now = (saveNote db m, .ok m) ∧
      m.wasEdited = n.wasEdited ∧ m.status = status) := by
  constructor
  · refine ⟨assignDto n { dto with wasEdited := some true }, ?_, ?_⟩
    · unfold updateNote
      rw [hfind]
      simp [hch]
    · simp [assignDto]
  · intro status now
    refine ⟨{ n with status := status,
                     submittedAt :=
                       if status = .submitted then some now
                       else n.submittedAt }, ?_, rfl, rfl⟩
    unfold updateNoteStatus
    rw [hfind]

/-- **C5 witness.** A concrete note: an update changing `diagnosis`
stores `wasEdited = true`; a status-only update keeps
`wasEdited = false`. -/
theorem update_sets_wasEdited_witness :
    (∃ n2, updateNote
        [SoapNote.mk 3 7 "s" "p" "d" "m" .pending false none 1 [] none
          none none] 3
        (UpdateSoapNoteDto.mk none none (some "d2") none none) 1 =
      (saveNote
        [SoapNote.mk 3 7 "s" "p" "d" "m" .pending false none 1 [] none
          none none] n2, .ok n2) ∧ n2.wasEdited = true) ∧
    (∀ status now, ∃ m, updateNoteStatus
        [SoapNote.mk 3 7 "s" "p" "d" "m" .pending false none 1 [] none
          none none] 3 status 1 now =
      (saveNote
        [SoapNote.mk 3 7 "s" "p" "d" "m" .pending false none 1 [] none
          none none] m, .ok m) ∧
      m.wasEdited = (SoapNote.mk 3 7 "s" "p" "d" "m" .pending false none 1
          [] none none none).wasEdited ∧
      m.status = status) :=
  update_sets_wasEdited_updateStatus_preserves_it
    [SoapNote.mk 3 7 "s" "p" "d" "m" .pending false none 1 [] none none
      none] 3 1
    (UpdateSoapNoteDto.mk none none (some "d2") none none)
    (SoapNote.mk 3 7 "s" "p" "d" "m" .pending false none 1 [] none none
      none)
    (by rfl) (by decide)

/-- After `incrementUsage`, the row found under the same code is the old
row with its counter bumped and its timestamp stamped. -/
theorem find?_incrementUsage_self (db : List Icd10Code) (now : Nat)
    (code : String) :
    (incrementUsage db now code).find? (fun r => r.code == code) =
      (db.find? fun r => r.code == code).map fun r =>
        { r with usage_count := r.usage_count + 1,
                 last_used_at := some now } := by
  induction db with
  | nil => rfl
  | cons r rs ih =>
    by_cases h : r.code == code
    · simp [incrementUsage, List.find?, h]
    · simpa [incrementUsage, List.find?, h] using ih

/-- `incrementUsage` leaves every other code's row (hence its counter)
unchanged. -/
theorem find?_incrementUsage_other (db : List Icd10Code) (now : Nat)
    (code c2 : String) (hne : c2 ≠ code) :
    (incrementUsage db now code).find? (fun r => r.code == c2) =
      db.find? fun r => r.code == c2 := by
  induction db with
  | nil => rfl
  | cons r rs ih =>
    by_cases h : r.code == code
    · have h2 : (r.code == c2) = false := by
        have : r.code = code := by simpa using h
        simp [this, Ne.symm hne]
      simp [incrementUsage, List.find?, h, h2] at ih ⊢
      exact ih
    · by_cases h3 : r.code == c2
      · simp [incrementUsage, List.find?, h, h3]
      · simp [incrementUsage, List.find?, h, h3] at ih ⊢
        exact ih

/-- **C6.** For a code whose (normalized) value is present in the local
store — as every code inserted by seeding is — `GET /icd10/code/:c`
returns that stored record and increments exactly its usage counter by
exactly one: the looked-up counter grows from `e.usage_count` to
`e.usage_count + 1` and every other code's counter is unchanged. -/
theorem getCode_local_hit_increments_once (api : WhoApi) (now : Nat)
    (db : List Icd10Code) (code : String) (e : Icd10Code)
    (hfmt : validateCodeFormat code = true)
    (hfind : db.find? (fun r => r.code == normCode code) = some e) :
    icd10ControllerGetCode api now db code =
      (incrementUsage db now (normCode code), .ok e) ∧
    usageOf db (normCode code) = some e.usage_count ∧
    usageOf (incrementUsage db now (normCode code)) (normCode code) =
      some (e.usage_count + 1) ∧
    (∀ c2, c2 ≠ normCode code →
      usageOf (incrementUsage db now (normCode code)) c2 = usageOf db c2) := by
  refine ⟨?_, ?_, ?_, ?_⟩
  · unfold icd10ControllerGetCode getCodeDetails
    simp [hfmt, hfind]
  · unfold usageOf
    rw [hfind]
    rfl
  · unfold usageOf
    rw [find?_incrementUsage_self, hfind]
    rfl
  · intro c2 hne
    unfold usageOf
    rw [find?_incrementUsage_other db now (normCode code) c2 hne]

/-- **C6 witness.** Over the table produced by `seedCommonCodes` on an
empty store, `GET /icd10/code/B50.9` (a seeded code) returns the seeded
record and moves its counter from 0 to 1, leaving e.g. `E11` at 0. -/
theorem getCode_seeded_witness :
    icd10ControllerGetCode (fun _ => .error .network) 1234
        (seedCommonCodes []) "B50.9" =
      (incrementUsage (seedCommonCodes []) 1234 "B50.9",
       .ok (mkSeedCode ⟨"B50.9", "Plasmodium falciparum malaria, unspecified",
             "I", ["malaria", "falciparum"]⟩)) ∧
    usageOf (seedCommonCodes []) "B50.9" = some 0 ∧
    usageOf (incrementUsage (seedCommonCodes []) 1234 "B50.9") "B50.9" =
      some 1 ∧
    usageOf (incrementUsage (seedCommonCodes []) 1234 "B50.9") "E11" =
      usageOf (seedCommonCodes []) "E11" := by
  have h := getCode_local_hit_increments_once (fun _ => .error .network)
    1234 (seedCommonCodes []) "B50.9"
    (mkSeedCode ⟨"B50.9", "Plasmodium falciparum malaria, unspecified",
      "I", ["malaria", "falciparum"]⟩)
    (by decide) (by decide)
  have hnorm : normCode "B50.9" = "B50.9" := by decide
  refine ⟨?_, ?_, ?_, ?_⟩
  · have := h.1
    rwa [hnorm] at this
  · have := h.2.1
    rwa [hnorm] at this
  · have := h.2.2.1
    rwa [hnorm] at this
  · have := h.2.2.2 "E11" (by decide)
    rwa [hnorm] at this

/-- **C7.** The exact-code detail lookup normalizes the code
(uppercase, trim) before the local lookup; when that misses and the WHO
API leg fails in any way (network rejection, authentication failure,
non-OK response), `getCodeDetails` returns `null` and leaves the store
unchanged, and the HTTP handler surfaces only a `404` — never the
upstream error. -/
theorem getCodeDetails_failure_swallowed (api : WhoApi) (now : Nat)
    (db : List Icd10Code) (code : String) (f : WhoFailure)
    (hfmt : validateCodeFormat code = true)
    (hmiss : db.find? (fun r => r.code == normCode code) = none)
    (hfail : api (normCode code) = .error f) :
    getCodeDetails api now db code = (db, none) ∧
    icd10ControllerGetCode api now db code =
      (db, .error ⟨404, "ICD-10 code " ++ code ++ " not found"⟩) := by
  have hdet : getCodeDetails api now db code = (db, none) := by
    unfold getCodeDetails
    simp [hmiss, hfail]
  refine ⟨hdet, ?_⟩
  unfold icd10ControllerGetCode
  rw [hdet]
  simp [hfmt]

/-- **C7 witness.** The lookup of `" z99 "` (normalizing to `Z99`,
absent from the seeded store) with each failing API outcome: result
`null`, store unchanged, `404` at the boundary. (The handler itself
validates the raw path parameter, so the concrete call uses the already
trimmed upper-case spelling.) -/
theorem getCodeDetails_failure_witness :
    normCode " z99 " = "Z99" ∧
    getCodeDetails (fun _ => .error .network) 99 (seedCommonCodes [])
      "Z99" = (seedCommonCodes [], none) ∧
    getCodeDetails (fun _ => .error .auth) 99 (seedCommonCodes [])
      "Z99" = (seedCommonCodes [], none) ∧
    icd10ControllerGetCode (fun _ => .error (.notOk 500)) 99
        (seedCommonCodes []) "Z99" =
      (seedCommonCodes [],
       .error ⟨404, "ICD-10 code Z99 not found"⟩) := by
  refine ⟨by decide, ?_, ?_, ?_⟩
  · exact (getCodeDetails_failure_swallowed (fun _ => .error .network) 99
      (seedCommonCodes []) "Z99" .network (by decide) (by decide)
      (by rfl)).1
  · exact (getCodeDetails_failure_swallowed (fun _ => .error .auth) 99
      (seedCommonCodes []) "Z99" .auth (by decide) (by decide)
      (by rfl)).1
  · exact (getCodeDetails_failure_swallowed (fun _ => .error (.notOk 500))
      99 (seedCommonCodes []) "Z99" (.notOk 500) (by decide) (by decide)
      (by rfl)).2

/-- Membership under `insertLe`. -/
theorem mem_insertLe {α : Type} (le : α → α → Bool) (a x : α)
    (l : List α) : x ∈ insertLe le a l ↔ x = a ∨ x ∈ l := by
  induction l with
  | nil => simp [insertLe]
  | cons b bs ih =>
    unfold insertLe
    by_cases h : le a b = true
    · rw [if_pos h]
      simp only [List.mem_cons]
    · rw [if_neg h]
      simp only [List.mem_cons, ih]
      tauto

/-- `sortByLe` permutes membership. -/
theorem mem_sortByLe {α : Type} (le : α → α → Bool) (x : α)
    (l : List α) : x ∈ sortByLe le l ↔ x ∈ l := by
  induction l with
  | nil => simp [sortByLe]
  | cons b bs ih =>
    unfold sortByLe
    rw [mem_insertLe, ih, List.mem_cons]

/-- Inserting into a sorted list keeps it sorted, for a transitive total
comparator. -/
theorem pairwise_insertLe {α : Type} (le : α → α → Bool)
    (htrans : ∀ a b c, le a b = true → le b c = true → le a c = true)
    (htot : ∀ a b, (le a b || le b a) = true)
    (a : α) (l : List α) (hl : l.Pairwise fun x y => le x y = true) :
    (insertLe le a l).Pairwise fun x y => le x y = true := by
  induction l with
  | nil => simp [insertLe]
  | cons b bs ih =>
    rw [List.pairwise_cons] at hl
    obtain ⟨hb, hbs⟩ := hl
    unfold insertLe
    by_cases hab : le a b = true
    · rw [if_pos hab, List.pairwise_cons]
      refine ⟨?_, List.pairwise_cons.mpr ⟨hb, hbs⟩⟩
      intro x hx
      rcases List.mem_cons.mp hx with rfl | hx
      · exact hab
      · exact htrans a b x hab (hb x hx)
    · rw [if_neg hab, List.pairwise_cons]
      refine ⟨?_, ih hbs⟩
      intro x hx
      rcases (mem_insertLe le a x bs).mp hx with rfl | hx
      · have h := htot x b
        rw [Bool.or_eq_true] at h
        rcases h with h | h
        · exact absurd h hab
        · exact h
      · exact hb x hx

/-- `sortByLe` sorts, for a transitive total comparator. -/
theorem pairwise_sortByLe {α : Type} (le : α → α → Bool)
    (htrans : ∀ a b c, le a b = true → le b c = true → le a c = true)
    (htot : ∀ a b, (le a b || le b a) = true)
    (l : List α) :
    (sortByLe le l).Pairwise fun x y => le x y = true := by
  induction l with
  | nil => simp [sortByLe]
  | cons b bs ih =>
    exact pairwise_insertLe le htrans htot b (sortByLe le bs) ih

/-- `tsDescLe` is transitive. -/
theorem tsDescLe_trans (x y z : Option Nat) (h1 : tsDescLe x y = true)
    (h2 : tsDescLe y z = true) : tsDescLe x z = true := by
  cases x <;> cases y <;> cases z <;>
    simp [tsDescLe, Nat.ble_eq] at * <;> omega

/-- `tsDescLe` is total. -/
theorem tsDescLe_total (x y : Option Nat) :
    (tsDescLe x y || tsDescLe y x) = true := by
  cases x <;> cases y <;> simp [tsDescLe, Nat.ble_eq] <;> omega

/-- The `searchLocal` comparator is transitive. -/
theorem searchKeyLe_trans (q : String) (a b c : Icd10Code)
    (h1 : searchKeyLe q a b = true) (h2 : searchKeyLe q b c = true) :
    searchKeyLe q a c = true := by
  simp only [searchKeyLe, Bool.or_eq_true, Bool.and_eq_true, Nat.blt_eq,
    beq_iff_eq] at h1 h2 ⊢
  rcases h1 with h1 | ⟨h1e, h1u | ⟨h1u, h1t⟩⟩ <;>
    rcases h2 with h2 | ⟨h2e, h2u | ⟨h2u, h2t⟩⟩
  · left; omega
  · left; omega
  · left; omega
  · left; omega
  · right; exact ⟨by omega, Or.inl (by omega)⟩
  · right; exact ⟨by omega, Or.inl (by omega)⟩
  · left; omega
  · right; exact ⟨by omega, Or.inl (by omega)⟩
  · right; exact ⟨by omega, Or.inr ⟨by omega, tsDescLe_trans _ _ _ h1t h2t⟩⟩

/-- The `searchLocal` comparator is total. -/
theorem searchKeyLe_total (q : String) (a b : Icd10Code) :
    (searchKeyLe q a b || searchKeyLe q b a) = true := by
  simp only [searchKeyLe, Bool.or_eq_true, Bool.and_eq_true, Nat.blt_eq,
    beq_iff_eq]
  have ht := tsDescLe_total a.last_used_at b.last_used_at
  rw [Bool.or_eq_true] at ht
  by_cases he : exactRank q a = exactRank q b
  · by_cases hu : a.usage_count = b.usage_count
    · rcases ht with ht | ht
      · exact Or.inl (Or.inr ⟨he, Or.inr ⟨hu, ht⟩⟩)
      · exact Or.inr (Or.inr ⟨he.symm, Or.inr ⟨hu.symm, ht⟩⟩)
    · rcases Nat.lt_or_ge a.usage_count b.usage_count with h | h
      · exact Or.inr (Or.inr ⟨he.symm, Or.inl h⟩)
      · exact Or.inl (Or.inr ⟨he, Or.inl (by omega)⟩)
  · rcases Nat.lt_or_ge (exactRank q a) (exactRank q b) with h | h
    · exact Or.inl (Or.inl h)
    · exact Or.inr (Or.inl (by omega))

/-- **C8.** For queries of trimmed length at least 2 the local search
(run by `searchCodes` on the trimmed, lower-cased query) returns only
active codes whose code, short description, long description or one of
the search terms contains the query as a substring, in the order "exact
code match first, then usage count descending, then last-used recency
descending", truncated to the requested limit. -/
theorem searchLocal_active_matching_ordered (db : List Icd10Code)
    (q : String) (limit : Nat) (hq : 2 ≤ (strTrim q).length) :
    (∀ r ∈ searchLocal db (strLower (strTrim q)) limit,
      r.is_active = true ∧
      (strHas (strLower r.code) (strLower (strTrim q)) = true ∨
       strHas (strLower r.short_description) (strLower (strTrim q)) = true ∨
       strHas (strLower r.long_description) (strLower (strTrim q)) = true ∨
       ∃ t ∈ r.search_terms,
         strHas (strLower t) (strLower (strTrim q)) = true)) ∧
    (searchLocal db (strLower (strTrim q)) limit).length ≤ limit ∧
    (searchLocal db (strLower (strTrim q)) limit).Pairwise
      (fun a b => searchKeyLe (strLower (strTrim q)) a b = true) := by
  refine ⟨?_, ?_, ?_⟩
  · intro r hr
    have hr2 : r ∈ sortByLe (searchKeyLe (strLower (strTrim q)))
        (db.filter fun r => searchLocalPred (strLower (strTrim q)) r) :=
      List.mem_of_mem_take hr
    have hr3 := (List.mem_filter.mp ((mem_sortByLe _ _ _).mp hr2)).2
    simp only [searchLocalPred, Bool.and_eq_true, Bool.or_eq_true,
      List.any_eq_true] at hr3
    refine ⟨hr3.1, ?_⟩
    tauto
  · exact List.length_take_le limit _
  · exact List.Pairwise.sublist (List.take_sublist limit _)
      (pairwise_sortByLe _ (searchKeyLe_trans _) (searchKeyLe_total _) _)

/-- **C8 witness.** The query `"  Diabetes "` (trimmed length 8) over
the seeded table satisfies the three conclusions. -/
theorem searchLocal_active_matching_witness :
    (∀ r ∈ searchLocal (seedCommonCodes [])
        (strLower (strTrim "  Diabetes ")) 15,
      r.is_active = true ∧
      (strHas (strLower r.code) (strLower (strTrim "  Diabetes ")) = true ∨
       strHas (strLower r.short_description)
         (strLower (strTrim "  Diabetes ")) = true ∨
       strHas (strLower r.long_description)
         (strLower (strTrim "  Diabetes ")) = true ∨
       ∃ t ∈ r.search_terms,
         strHas (strLower t) (strLower (strTrim "  Diabetes ")) = true)) ∧
    (searchLocal (seedCommonCodes []) (strLower (strTrim "  Diabetes "))
        15).length ≤ 15 ∧
    (searchLocal (seedCommonCodes []) (strLower (strTrim "  Diabetes "))
        15).Pairwise
      (fun a b =>
        searchKeyLe (strLower (strTrim "  Diabetes ")) a b = true) :=
  searchLocal_active_matching_ordered (seedCommonCodes []) "  Diabetes "
    15 (by decide)

/-- Membership in the per-field change list. -/
theorem mem_optChange (f old v g cur : String) (o : Option String) :
    (⟨f, old, v⟩ : EditChange) ∈ optChange g cur o ↔
      f = g ∧ old = cur ∧ o = some v ∧ v ≠ cur := by
  cases o with
  | none => simp [optChange]
  | some w =>
    simp only [optChange]
    by_cases h : w ≠ cur
    · rw [if_pos h]
      simp only [List.mem_singleton, EditChange.mk.injEq, Option.some.injEq]
      constructor
      · rintro ⟨rfl, rfl, rfl⟩
        exact ⟨rfl, rfl, rfl, h⟩
      · rintro ⟨rfl, rfl, rfl, _⟩
        exact ⟨rfl, rfl, rfl⟩
    · rw [if_neg h]
      push_neg at h
      simp only [List.not_mem_nil, false_iff, not_and]
      rintro rfl rfl hv
      rw [Option.some_inj] at hv
      rw [← hv, h]
      simp

/-- Every per-field change carries that field's name and the stored old
value. -/
theorem optChange_field (g cur : String) (o : Option String)
    (ch : EditChange) (h : ch ∈ optChange g cur o) :
    ch.field = g ∧ ch.oldValue = cur := by
  cases o with
  | none => simp [optChange] at h
  | some w =>
    simp only [optChange] at h
    split_ifs at h with hw
    · rw [List.mem_singleton] at h
      subst h
      exact ⟨rfl, rfl⟩
    · simp at h

/-- **C9.** The edit-with-history operation: when no supplied field
differs from the stored values the note is returned unchanged and no
history entry is added; otherwise exactly one entry — editor id and
name, timestamp, and the `{field, old, new}` list of exactly the fields
that differed — is appended to the note's edit-history array (existing
entries untouched) and the last-edited denormalized fields are updated.
The change list contains a field's record precisely when the dto
supplied it with a different value, old value being the stored one. -/
theorem updateNoteWithHistory_appends_exact_changes (db : List SoapNote)
    (id : Nat) (dto : UpdateSoapNoteDto) (editorId : Nat)
    (editorName : String) (now : Nat) (n : SoapNote)
    (hfind : findOneNote db id editorId = .ok n) :
    (changedFields n dto = [] →
      updateNoteWithHistory db id dto editorId editorName now =
        (db, .ok n)) ∧
    (changedFields n dto ≠ [] →
      ∃ n2, updateNoteWithHistory db id dto editorId editorName now =
          (saveNote db n2, .ok n2) ∧
        n2.editHistory =
          n.editHistory ++
            [⟨editorId, editorName, now, changedFields n dto⟩] ∧
        n2.lastEditedBy = some editorId ∧
        n2.lastEditedByName = some editorName ∧
        n2.lastEditedAt = some now) ∧
    (∀ old v, (⟨"symptoms", old, v⟩ : EditChange) ∈ changedFields n dto ↔
      old = n.symptoms ∧ dto.symptoms = some v ∧ v ≠ n.symptoms) ∧
    (∀ old v,
      (⟨"physicalExamination", old, v⟩ : EditChange) ∈ changedFields n dto ↔
      old = n.physicalExamination ∧ dto.physicalExamination = some v ∧
        v ≠ n.physicalExamination) ∧
    (∀ old v, (⟨"diagnosis", old, v⟩ : EditChange) ∈ changedFields n dto ↔
      old = n.diagnosis ∧ dto.diagnosis = some v ∧ v ≠ n.diagnosis) ∧
    (∀ old v, (⟨"management", old, v⟩ : EditChange) ∈ changedFields n dto ↔
      old = n.management ∧ dto.management = some v ∧ v ≠ n.management) ∧
    (∀ ch ∈ changedFields n dto,
      ch.field = "symptoms" ∨ ch.field = "physicalExamination" ∨
      ch.field = "diagnosis" ∨ ch.field = "management") := by
  have hmem : ∀ f old v,
      (⟨f, old, v⟩ : EditChange) ∈ changedFields n dto ↔
        (f = "symptoms" ∧ old = n.symptoms ∧ dto.symptoms = some v ∧
          v ≠ n.symptoms) ∨
        (f = "physicalExamination" ∧ old = n.physicalExamination ∧
          dto.physicalExamination = some v ∧ v ≠ n.physicalExamination) ∨
        (f = "diagnosis" ∧ old = n.diagnosis ∧ dto.diagnosis = some v ∧
          v ≠ n.diagnosis) ∨
        (f = "management" ∧ old = n.management ∧ dto.management = some v ∧
          v ≠ n.management) := by
    intro f old v
    unfold changedFields
    simp only [List.mem_append, mem_optChange, or_assoc]
  refine ⟨?_, ?_, ?_, ?_, ?_, ?_, ?_⟩
  · intro h
    unfold updateNoteWithHistory
    rw [hfind]
    simp [h]
  · intro hne
    refine ⟨{ assignDto n dto with
              wasEdited := true,
              editHistory := n.editHistory ++
                [⟨editorId, editorName, now, changedFields n dto⟩],
              lastEditedBy := some editorId,
              lastEditedByName := some editorName,
              lastEditedAt := some now }, ?_, rfl, rfl, rfl, rfl⟩
    unfold updateNoteWithHistory
    rw [hfind]
    simp [List.isEmpty_iff, hne]
  · intro old v
    rw [hmem "symptoms" old v]
    simp
  · intro old v
    rw [hmem "physicalExamination" old v]
    simp
  · intro old v
    rw [hmem "diagnosis" old v]
    simp
  · intro old v
    rw [hmem "management" old v]
    simp
  · intro ch hch
    unfold changedFields at hch
    simp only [List.mem_append] at hch
    rcases hch with ((h | h) | h) | h <;>
      [exact Or.inl (optChange_field _ _ _ _ h).1;
       exact Or.inr (Or.inl (optChange_field _ _ _ _ h).1);
       exact Or.inr (Or.inr (Or.inl (optChange_field _ _ _ _ h).1));
       exact Or.inr (Or.inr (Or.inr (optChange_field _ _ _ _ h).1))]

/-- **C9 witness.** A concrete edit supplying a changed `symptoms` and
an unchanged `diagnosis`: exactly the symptoms change is appended, and
a no-op dto leaves the note untouched. -/
theorem updateNoteWithHistory_witness :
    (changedFields
        (SoapNote.mk 3 7 "s" "p" "d" "m" .pending false none 1 [] none
          none none)
        (UpdateSoapNoteDto.mk (some "s2") none (some "d") none none) ≠ [] →
      ∃ n2, updateNoteWithHistory
          [SoapNote.mk 3 7 "s" "p" "d" "m" .pending false none 1 [] none
            none none] 3
          (UpdateSoapNoteDto.mk (some "s2") none (some "d") none none)
          1 "Jane Doe" 555 =
        (saveNote
          [SoapNote.mk 3 7 "s" "p" "d" "m" .pending false none 1 [] none
            none none] n2, .ok n2) ∧
      n2.editHistory =
        (SoapNote.mk 3 7 "s" "p" "d" "m" .pending false none 1 [] none
          none none).editHistory ++
          [⟨1, "Jane Doe", 555,
            changedFields
              (SoapNote.mk 3 7 "s" "p" "d" "m" .pending false none 1 []
                none none none)
              (UpdateSoapNoteDto.mk (some "s2") none (some "d") none
                none)⟩] ∧
      n2.lastEditedBy = some 1 ∧ n2.lastEditedByName = some "Jane Doe" ∧
      n2.lastEditedAt = some 555) ∧
    (changedFields
        (SoapNote.mk 3 7 "s" "p" "d" "m" .pending false none 1 [] none
          none none)
        (UpdateSoapNoteDto.mk (some "s2") none (some "d") none none) ≠
      []) ∧
    (changedFields
        (SoapNote.mk 3 7 "s" "p" "d" "m" .pending false none 1 [] none
          none none)
        (UpdateSoapNoteDto.mk (some "s") none (some "d") none none) = [] →
      updateNoteWithHistory
          [SoapNote.mk 3 7 "s" "p" "d" "m" .pending false none 1 [] none
            none none] 3
          (UpdateSoapNoteDto.mk (some "s") none (some "d") none none)
          1 "Jane Doe" 555 =
        ([SoapNote.mk 3 7 "s" "p" "d" "m" .pending false none 1 [] none
            none none],
         .ok (SoapNote.mk 3 7 "s" "p" "d" "m" .pending false none 1 []
            none none none))) ∧
    (changedFields
        (SoapNote.mk 3 7 "s" "p" "d" "m" .pending false none 1 [] none
          none none)
        (UpdateSoapNoteDto.mk (some "s") none (some "d") none none) =
      []) := by
  refine ⟨?_, by decide, ?_, by decide⟩
  · exact (updateNoteWithHistory_appends_exact_changes
      [SoapNote.mk 3 7 "s" "p" "d" "m" .pending false none 1 [] none none
        none] 3
      (UpdateSoapNoteDto.mk (some "s2") none (some "d") none none)
      1 "Jane Doe" 555
      (SoapNote.mk 3 7 "s" "p" "d" "m" .pending false none 1 [] none none
        none) (by rfl)).2.1
  · exact (updateNoteWithHistory_appends_exact_changes
      [SoapNote.mk 3 7 "s" "p" "d" "m" .pending false none 1 [] none none
        none] 3
      (UpdateSoapNoteDto.mk (some "s") none (some "d") none none)
      1 "Jane Doe" 555
      (SoapNote.mk 3 7 "s" "p" "d" "m" .pending false none 1 [] none none
        none) (by rfl)).1

/-- Filtering by a predicate that entails `p` is unaffected by first
restricting the list to `p` (SQL `WHERE p AND rest` reads only the
`p`-rows). -/
theorem filter_subpred {α : Type} (pred p : α → Bool) (l : List α)
    (h : ∀ a, pred a = true → p a = true) :
    l.filter pred = (l.filter p).filter pred := by
  induction l with
  | nil => rfl
  | cons a as ih =>
    by_cases hp : pred a = true
    · have hpa := h a hp
      simp [List.filter, hp, hpa, ← ih]
    · by_cases hpa : p a = true <;>
        simp [List.filter, hp, hpa, ← ih]

/-- Replacing the row of one user's note leaves every other user's rows
exactly in place (unique primary keys). -/
theorem saveNote_other_rows (db : List SoapNote) (n n2 m : SoapNote)
    (hids : (db.map fun x => x.id).Nodup)
    (hn : n ∈ db) (hid : n2.id = n.id)
    (howner : n2.createdById = n.createdById)
    (hm : m.createdById ≠ n.createdById) :
    (m ∈ saveNote db n2 ↔ m ∈ db) := by
  unfold saveNote
  constructor
  · intro h
    rcases List.mem_map.mp h with ⟨v, hv, hveq⟩
    by_cases hc : v.id == n2.id
    · rw [if_pos hc] at hveq
      rw [← hveq] at hm
      exact absurd howner hm
    · rw [if_neg hc] at hveq
      rw [← hveq]
      exact hv
  · intro h
    have heq : (if m.id == n2.id then n2 else m) = m := by
      by_cases hc : m.id == n2.id
      · have hmid : m.id = n.id := by
          rw [← hid]
          simpa using hc
      -- same key means same row, contradicting the owner mismatch
        have := List.inj_on_of_nodup_map hids h hn hmid
        rw [this] at hm
        exact absurd rfl hm
      · rw [if_neg hc]
    rw [← heq]
    exact List.mem_map.mpr ⟨m, h, rfl⟩

/-- Deleting one user's note leaves every other user's rows exactly in
place (unique primary keys). -/
theorem removeNote_other_rows (db : List SoapNote) (n m : SoapNote)
    (hids : (db.map fun x => x.id).Nodup)
    (hn : n ∈ db) (hm : m.createdById ≠ n.createdById) :
    ((m ∈ db.filter fun x => ¬x.id == n.id) ↔ m ∈ db) := by
  constructor
  · intro h
    exact (List.mem_filter.mp h).1
  · intro h
    refine List.mem_filter.mpr ⟨h, ?_⟩
    by_cases hc : m.id = n.id
    · have := List.inj_on_of_nodup_map hids h hn hc
      rw [this] at hm
      exact absurd rfl hm
    · simpa using hc

/-- **C10.** Every SOAP-note operation is scoped to the requesting
user: a loaded note is the user's own; when the user owns no note with
the id, `findOne` — and with it `update`, `updateStatus` and `remove` —
fails with exactly the `NotFoundException` of a nonexistent note,
leaving the table unchanged; `findAll` and `getStatistics` read only
the user's rows (restricting the table to them changes nothing); and
the mutating operations never touch another user's rows. -/
theorem soapNotes_scoped_to_requesting_user
    (ord : SoapNote → SoapNote → Bool) (patients : List Patient)
    (db : List SoapNote) (id userId : Nat) (q : QuerySoapNotesDto)
    (dto : UpdateSoapNoteDto) (status : SoapNoteStatus) (now : Nat)
    (hids : (db.map fun x => x.id).Nodup) :
    (∀ n, findOneNote db id userId = .ok n →
      n.createdById = userId ∧ n.id = id ∧ n ∈ db) ∧
    ((∀ n ∈ db, ¬(n.id = id ∧ n.createdById = userId)) →
      findOneNote db id userId = .error (noteNotFound id) ∧
      updateNote db id dto userId = (db, .error (noteNotFound id)) ∧
      updateNoteStatus db id status userId now =
        (db, .error (noteNotFound id)) ∧
      removeNote db id userId = (db, .error (noteNotFound id))) ∧
    (findAllNotes ord patients db userId q =
      findAllNotes ord patients
        (db.filter fun n => n.createdById == userId) userId q) ∧
    (getStatistics db userId =
      getStatistics (db.filter fun n => n.createdById == userId) userId) ∧
    (∀ m, m.createdById ≠ userId →
      ((m ∈ (updateNote db id dto userId).1 ↔ m ∈ db) ∧
       (m ∈ (updateNoteStatus db id status userId now).1 ↔ m ∈ db) ∧
       (m ∈ (removeNote db id userId).1 ↔ m ∈ db))) := by
  have hfind : ∀ n, findOneNote db id userId = .ok n →
      n.createdById = userId ∧ n.id = id ∧ n ∈ db := by
    intro n hn
    unfold findOneNote at hn
    rcases hf : db.find? fun x => x.id == id && x.createdById == userId with
      _ | v
    · rw [hf] at hn
      exact absurd hn (by simp)
    · rw [hf] at hn
      have hv : v = n := by simpa using hn
      subst hv
      have hp := List.find?_some hf
      simp only [Bool.and_eq_true, beq_iff_eq] at hp
      exact ⟨hp.2, hp.1, List.mem_of_find?_eq_some hf⟩
  refine ⟨hfind, ?_, ?_, ?_, ?_⟩
  · intro h
    have hnone : findOneNote db id userId = .error (noteNotFound id) := by
      unfold findOneNote
      rw [List.find?_eq_none.mpr]
      intro x hx
      simp only [Bool.and_eq_true, beq_iff_eq, not_and]
      intro h1 h2
      exact h x hx ⟨h1, h2⟩
    refine ⟨hnone, ?_, ?_, ?_⟩
    · unfold updateNote
      rw [hnone]
    · unfold updateNoteStatus
      rw [hnone]
    · unfold removeNote
      rw [hnone]
  · unfold findAllNotes
    rw [← filter_subpred _ _ db]
    intro a ha
    simp only [Bool.and_eq_true] at ha
    exact ha.1.1
  · unfold getStatistics
    rw [← filter_subpred _ _ db]
    intro a ha
    exact ha
  · intro m hm
    rcases hf : findOneNote db id userId with e | n
    · refine ⟨?_, ?_, ?_⟩ <;>
        simp [updateNote, updateNoteStatus, removeNote, hf]
    · obtain ⟨howner, hnid, hmem⟩ := hfind n hf
      rw [← howner] at hm
      refine ⟨?_, ?_, ?_⟩
      · unfold updateNote
        rw [hf]
        exact saveNote_other_rows db n _ m hids hmem (by simp [assignDto])
          (by simp [assignDto]) hm
      · unfold updateNoteStatus
        rw [hf]
        exact saveNote_other_rows db n _ m hids hmem (by simp) (by simp) hm
      · unfold removeNote
        rw [hf]
        exact removeNote_other_rows db n m hids hmem hm

/-- **C10 witness.** User 2 requesting user 1's note (id 1) gets exactly
the nonexistent-note error from every operation with the table
untouched, list/statistics reads restrict to the requester's rows, and
user 1's row is untouched by user 2's mutations. -/
theorem soapNotes_scoped_witness :
    (findOneNote
        [SoapNote.mk 1 7 "s" "p" "d" "m" .pending false none 1 [] none
          none none] 1 2 = .error (noteNotFound 1) ∧
      updateNote
        [SoapNote.mk 1 7 "s" "p" "d" "m" .pending false none 1 [] none
          none none] 1 (UpdateSoapNoteDto.mk (some "x") none none none
          none) 2 =
        ([SoapNote.mk 1 7 "s" "p" "d" "m" .pending false none 1 [] none
           none none], .error (noteNotFound 1)) ∧
      updateNoteStatus
        [SoapNote.mk 1 7 "s" "p" "d" "m" .pending false none 1 [] none
          none none] 1 .submitted 2 9 =
        ([SoapNote.mk 1 7 "s" "p" "d" "m" .pending false none 1 [] none
           none none], .error (noteNotFound 1)) ∧
      removeNote
        [SoapNote.mk 1 7 "s" "p" "d" "m" .pending false none 1 [] none
          none none] 1 2 =
        ([SoapNote.mk 1 7 "s" "p" "d" "m" .pending false none 1 [] none
           none none], .error (noteNotFound 1))) ∧
    (findAllNotes (fun _ _ => true) []
        [SoapNote.mk 1 7 "s" "p" "d" "m" .pending false none 1 [] none
          none none] 2 (QuerySoapNotesDto.mk none none none none) =
      findAllNotes (fun _ _ => true) []
        ([SoapNote.mk 1 7 "s" "p" "d" "m" .pending false none 1 [] none
           none none].filter fun n => n.createdById == 2) 2
        (QuerySoapNotesDto.mk none none none none)) ∧
    (getStatistics
        [SoapNote.mk 1 7 "s" "p" "d" "m" .pending false none 1 [] none
          none none] 2 =
      getStatistics
        ([SoapNote.mk 1 7 "s" "p" "d" "m" .pending false none 1 [] none
           none none].filter fun n => n.createdById == 2) 2) ∧
    ((SoapNote.mk 1 7 "s" "p" "d" "m" .pending false none 1 [] none none
        none) ∈
      (removeNote
        [SoapNote.mk 1 7 "s" "p" "d" "m" .pending false none 1 [] none
          none none] 1 2).1 ↔
      (SoapNote.mk 1 7 "s" "p" "d" "m" .pending false none 1 [] none none
        none) ∈
      [SoapNote.mk 1 7 "s" "p" "d" "m" .pending false none 1 [] none none
        none]) := by
  have h := soapNotes_scoped_to_requesting_user (fun _ _ => true) []
    [SoapNote.mk 1 7 "s" "p" "d" "m" .pending false none 1 [] none none
      none] 1 2 (QuerySoapNotesDto.mk none none none none)
    (UpdateSoapNoteDto.mk (some "x") none none none none) .submitted 9
    (by decide)
  refine ⟨h.2.1 (by decide), h.2.2.1, h.2.2.2.1, ?_⟩
  exact (h.2.2.2.2
    (SoapNote.mk 1 7 "s" "p" "d" "m" .pending false none 1 [] none none
      none) (by decide)).2.2
